import Mathlib

/-!
# Verification of the haex-space marketplace-sdk API client

This file shallowly embeds `src/client.ts` of the marketplace SDK: the
`MarketplaceClient` class (construction, the private `request` helper, and the
public operations built on it) together with the JavaScript runtime behaviour
the code relies on (`encodeURIComponent`, `URLSearchParams` serialization,
object-spread header merging, truthiness tests, nullish coalescing, property
access, and `fetch` response handling).

Modelling conventions:
* JSON values are the inductive `Json`; JavaScript numbers are restricted to
  integers, which covers every value the SDK manipulates.
* A fetch-compatible transport is modelled by its observable behaviour on the
  n-th call: `Nat → FetchBehavior`, where a call either rejects (a transport
  failure) or resolves to a status code plus a body that does or does not
  decode as JSON.
* `request` threads a log of performed calls (`PerformedCall`: the URL and the
  headers actually handed to the transport); the log grows by exactly one
  entry per transport invocation, which is how round trips are counted.
* A JavaScript object used as a string map is a `List (String × String)` in
  insertion order; `setHeader` mirrors property assignment / object spread
  (overwrite in place if the key exists, else append).
-/

/-! ## JSON values -/

inductive Json where
  | null
  | bool (b : Bool)
  | num (n : Int)
  | str (s : String)
  | arr (elems : List Json)
  | obj (fields : List (String × Json))

/-- JavaScript truthiness of a JSON value (`null`, `false`, `0` and `""` are
falsy; arrays and objects are always truthy). -/
def Json.truthy : Json → Bool
  | .null => false
  | .bool b => b
  | .num n => !(n == 0)
  | .str s => !(s == "")
  | .arr _ => true
  | .obj _ => true

mutual

/-- The `String(v)` coercion applied by the `Error` constructor to its message
argument. -/
def Json.jsToString : Json → String
  | .null => "null"
  | .bool b => if b then "true" else "false"
  | .num n => toString n
  | .str s => s
  | .arr elems => String.intercalate "," (Json.jsToStringList elems)
  | .obj _ => "[object Object]"

/-- Element-wise stringification for `Array.prototype.join`: a `null` (or
`undefined`) element becomes the empty string — so `String([null]) = ""` —
while every other element is converted with `ToString`. -/
def Json.jsToStringList : List Json → List String
  | [] => []
  | Json.null :: rest => "" :: Json.jsToStringList rest
  | j :: rest => Json.jsToString j :: Json.jsToStringList rest

end

/-- Property read `j.error` on a JSON value other than `null`: defined fields
of objects are found, everything else is `undefined` (`none`).  Reading a
property of `null` throws; that case is handled at the use site. -/
def Json.getField (j : Json) (k : String) : Option Json :=
  match j with
  | .obj fields => (fields.find? (fun kv => kv.1 == k)).map (fun kv => kv.2)
  | _ => none

/-! ## Percent-encoding (`encodeURIComponent` and `URLSearchParams`) -/

/-- Uppercase hexadecimal digit, total on `Nat` (only arguments `< 16` occur). -/
def hexChar : Nat → Char
  | 0 => '0' | 1 => '1' | 2 => '2' | 3 => '3' | 4 => '4'
  | 5 => '5' | 6 => '6' | 7 => '7' | 8 => '8' | 9 => '9'
  | 10 => 'A' | 11 => 'B' | 12 => 'C' | 13 => 'D' | 14 => 'E'
  | _ => 'F'

/-- UTF-8 encoding of a Unicode code point, as byte values. -/
def utf8Bytes (n : Nat) : List Nat :=
  if n < 0x80 then [n]
  else if n < 0x800 then [0xC0 + n / 64, 0x80 + n % 64]
  else if n < 0x10000 then [0xE0 + n / 4096, 0x80 + n / 64 % 64, 0x80 + n % 64]
  else [0xF0 + n / 262144, 0x80 + n / 4096 % 64, 0x80 + n / 64 % 64, 0x80 + n % 64]

/-- Percent escapes (two uppercase hex digits each) of a byte sequence. -/
def percentChars : List Nat → List Char
  | [] => []
  | b :: rest => '%' :: hexChar (b / 16) :: hexChar (b % 16) :: percentChars rest

/-- Characters `encodeURIComponent` leaves unescaped:
`A–Z a–z 0–9 - _ . ! ~ * ' ( )` (by code point: 45, 95, 46, 33, 126, 42, 39,
40, 41). -/
def isUriUnreserved (c : Char) : Bool :=
  let n := c.toNat
  decide ((65 ≤ n ∧ n ≤ 90) ∨ (97 ≤ n ∧ n ≤ 122) ∨ (48 ≤ n ∧ n ≤ 57) ∨
    n = 45 ∨ n = 95 ∨ n = 46 ∨ n = 33 ∨ n = 126 ∨ n = 42 ∨ n = 39 ∨ n = 40 ∨ n = 41)

def encodeURIComponentChar (c : Char) : List Char :=
  if isUriUnreserved c then [c] else percentChars (utf8Bytes c.toNat)

def encodeURIComponentChars : List Char → List Char
  | [] => []
  | c :: rest => encodeURIComponentChar c ++ encodeURIComponentChars rest

/-- JavaScript `encodeURIComponent`. -/
def encodeURIComponent (s : String) : String :=
  ⟨encodeURIComponentChars s.data⟩

/-- Characters the `application/x-www-form-urlencoded` serializer used by
`URLSearchParams.toString` leaves unescaped: `A–Z a–z 0–9 * - . _`
(by code point: 42, 45, 46, 95). -/
def isFormUnreserved (c : Char) : Bool :=
  let n := c.toNat
  decide ((65 ≤ n ∧ n ≤ 90) ∨ (97 ≤ n ∧ n ≤ 122) ∨ (48 ≤ n ∧ n ≤ 57) ∨
    n = 42 ∨ n = 45 ∨ n = 46 ∨ n = 95)

def formEncodeChar (c : Char) : List Char :=
  if c.toNat = 32 then ['+']
  else if isFormUnreserved c then [c]
  else percentChars (utf8Bytes c.toNat)

def formEncodeChars : List Char → List Char
  | [] => []
  | c :: rest => formEncodeChar c ++ formEncodeChars rest

def formEncode (s : String) : String :=
  ⟨formEncodeChars s.data⟩

/-- The `URLSearchParams.toString` serialization of an ordered list of appended pairs. -/
def searchParamsToString (pairs : List (String × String)) : String :=
  String.intercalate "&" (pairs.map (fun kv => formEncode kv.1 ++ "=" ++ formEncode kv.2))

/-! ## Query parameters -/

/-- A defined value in a `Record<string, string | number | undefined>`;
`undefined` entries are `none` at the use site. -/
inductive ParamValue where
  | str (s : String)
  | num (n : Int)
deriving DecidableEq, Repr

/-- The `String(value)` conversion applied before `searchParams.append`. -/
def ParamValue.jsString : ParamValue → String
  | .str s => s
  | .num n => toString n

/-- The `for (const [key, value] of Object.entries(params))` loop of
`request`: append `[key, String(value)]` for every entry whose value is not
`undefined`. -/
def appendDefinedParams : List (String × Option ParamValue) → List (String × String)
  | [] => []
  | (_, none) :: rest => appendDefinedParams rest
  | (k, some v) :: rest => (k, v.jsString) :: appendDefinedParams rest

/-- URL assembly of `request`: concatenate base URL and endpoint; when a
params record was supplied, serialize it and append `?` plus the query string
only when the query string is non-empty. -/
def buildUrl (baseUrl endpoint : String) (params : Option (List (String × Option ParamValue))) : String :=
  let url := baseUrl ++ endpoint
  match params with
  | none => url
  | some ps =>
    let queryString := searchParamsToString (appendDefinedParams ps)
    if queryString = "" then url else url ++ "?" ++ queryString

/-! ## Headers -/

/-- JavaScript object property assignment on a string map: overwrite in place
when the key is present, append otherwise.  Object spread of a later map over
an earlier one is a fold of this operation. -/
def setHeader (hs : List (String × String)) (k v : String) : List (String × String) :=
  if hs.any (fun kv => kv.1 == k) then
    hs.map (fun kv => if kv.1 = k then (k, v) else kv)
  else
    hs ++ [(k, v)]

def getHeader (hs : List (String × String)) (k : String) : Option String :=
  (hs.find? (fun kv => kv.1 == k)).map (fun kv => kv.2)

/-- One conditional identity-header assignment of `request`:
`if (value) { headers[k] = value }` — a truthiness test, so a missing or
empty configured value assigns nothing. -/
def setIdentityHeader (hs : List (String × String)) (k : String) :
    Option String → List (String × String)
  | some s => if s = "" then hs else setHeader hs k s
  | none => hs

/-- Header assembly of `request`: start from `Content-Type: application/json`,
spread the caller-supplied headers over it, then set `X-Platform` and
`X-App-Version` when the configured values are truthy (present and
non-empty). -/
def buildHeaders (platform appVersion : Option String) (callerHeaders : List (String × String)) :
    List (String × String) :=
  setIdentityHeader
    (setIdentityHeader
      (callerHeaders.foldl (fun acc kv => setHeader acc kv.1 kv.2)
        [("Content-Type", "application/json")])
      "X-Platform" platform)
    "X-App-Version" appVersion

/-! ## Transport and responses -/

/-- What `await this.fetchFn(url, options)` observably does on one call. -/
structure FetchResponse where
  /-- The `response.status` code. -/
  status : Nat
  /-- Decoded body: `some j` when `response.json()` resolves to `j`; `none` when the body is
  not valid JSON and `response.json()` rejects. -/
  body : Option Json

inductive FetchBehavior where
  /-- The transport call itself rejects (network failure etc.). -/
  | throws (msg : String)
  /-- The transport call resolves to a response. -/
  | returns (r : FetchResponse)

/-- A transport capability, identified with its behaviour on the n-th call it
receives. -/
def Transport := Nat → FetchBehavior

/-- The URL and headers handed to the transport on one invocation. -/
structure PerformedCall where
  url : String
  headers : List (String × String)
deriving DecidableEq, Repr

/-- How one client call ends. -/
inductive RequestOutcome where
  /-- A success status: the promise resolves to the decoded JSON body. -/
  | success (body : Json)
  /-- A `MarketplaceApiError` with its `message` and `statusCode`. -/
  | apiError (message : String) (statusCode : Nat)
  /-- The transport rejection, propagated unchanged. -/
  | transportError (msg : String)
  /-- The case that `response.json()` rejected on a success status; the decode failure
  propagates. -/
  | decodeError
  /-- The case that `this.fetchFn` is `undefined`: calling it throws a `TypeError`. -/
  | noTransport
  /-- Property access on a `null` error body throws a `TypeError`. -/
  | typeError

/-! ## The client -/

structure MarketplaceClientOptions where
  baseUrl : Option String := none
  platform : Option String := none
  appVersion : Option String := none
  fetch : Option Transport := none

def DEFAULT_BASE_URL : String := "https://marketplace.haex.space"

structure MarketplaceClient where
  baseUrl : String
  platform : Option String
  appVersion : Option String
  /-- Here `none` models `this.fetchFn === undefined`, which happens when neither
  `options.fetch` nor the ambient `globalThis.fetch` existed at construction. -/
  fetchFn : Option Transport

/-- The constructor: `options.baseUrl ?? DEFAULT_BASE_URL`,
`options.fetch ?? globalThis.fetch`, where `ambientFetch` is the value of
`globalThis.fetch` at construction time. -/
def MarketplaceClient.construct (options : MarketplaceClientOptions)
    (ambientFetch : Option Transport) : MarketplaceClient :=
  { baseUrl := options.baseUrl.getD DEFAULT_BASE_URL
    platform := options.platform
    appVersion := options.appVersion
    fetchFn := options.fetch <|> ambientFetch }

/-- The `params`/`headers` part of the `RequestInit`-plus-`params` options
object taken by `request`. -/
structure RequestOptions where
  headers : List (String × String) := []
  params : Option (List (String × Option ParamValue)) := none

/-- The private `request` helper.  `log` is the list of transport invocations
made so far; the result pairs the call's outcome with the extended log.  The
transport behaviour consumed is `f log.length` (the next call of `f`). -/
def MarketplaceClient.request (c : MarketplaceClient) (endpoint : String)
    (options : Option RequestOptions) (log : List PerformedCall) :
    RequestOutcome × List PerformedCall :=
  let opts := match options with
    | some o => o
    | none => {}
  let url := buildUrl c.baseUrl endpoint opts.params
  let headers := buildHeaders c.platform c.appVersion opts.headers
  match c.fetchFn with
  | none => (.noTransport, log)
  | some f =>
    let outcome : RequestOutcome := match f log.length with
      | .throws msg => .transportError msg
      | .returns resp =>
        if 200 ≤ resp.status ∧ resp.status < 300 then
          match resp.body with
          | some j => .success j
          | none => .decodeError
        else
          let errorData : Json := match resp.body with
            | some j => j
            | none => .obj [("error", .str ("HTTP " ++ toString resp.status))]
          match errorData with
          | .null => .typeError
          | _ =>
            let message := match errorData.getField "error" with
              | some v => if v.truthy then v.jsToString else "HTTP " ++ toString resp.status
              | none => "HTTP " ++ toString resp.status
            .apiError message resp.status
    (outcome, log ++ [⟨url, headers⟩])

/-! ## Public operations -/

def MarketplaceClient.listExtensions (c : MarketplaceClient)
    (params : Option (List (String × Option ParamValue))) (log : List PerformedCall) :
    RequestOutcome × List PerformedCall :=
  c.request "/extensions" (some { params := params }) log

def MarketplaceClient.getExtension (c : MarketplaceClient) (slug : String)
    (log : List PerformedCall) : RequestOutcome × List PerformedCall :=
  c.request ("/extensions/" ++ encodeURIComponent slug) none log

def MarketplaceClient.listCategories (c : MarketplaceClient) (log : List PerformedCall) :
    RequestOutcome × List PerformedCall :=
  c.request "/categories" none log

/-- The `getDownloadUrl` operation: its options object is
`{ params: version ? { version } : undefined }` — a truthiness test on
`version`. -/
def MarketplaceClient.getDownloadUrl (c : MarketplaceClient) (slug : String)
    (version : Option String) (log : List PerformedCall) :
    RequestOutcome × List PerformedCall :=
  c.request ("/extensions/" ++ encodeURIComponent slug ++ "/download")
    (some { params := match version with
      | some v => if v = "" then none else some [("version", some (.str v))]
      | none => none }) log

def MarketplaceClient.listVersions (c : MarketplaceClient) (slug : String)
    (log : List PerformedCall) : RequestOutcome × List PerformedCall :=
  c.request ("/extensions/" ++ encodeURIComponent slug ++ "/versions") none log

def MarketplaceClient.listReviews (c : MarketplaceClient) (slug : String)
    (params : Option (List (String × Option ParamValue))) (log : List PerformedCall) :
    RequestOutcome × List PerformedCall :=
  c.request ("/extensions/" ++ encodeURIComponent slug ++ "/reviews")
    (some { params := params }) log

def MarketplaceClient.health (c : MarketplaceClient) (log : List PerformedCall) :
    RequestOutcome × List PerformedCall :=
  c.request "/health" none log

/-! ## Stubs and spec-side definitions -/

/-- A character admissible in a single URL path segment: not a segment
separator and not the start of a query or fragment. -/
def pathSafe (c : Char) : Bool := !(c == '/') && !(c == '?') && !(c == '#')

/-- A transport stub whose every call resolves to status 200 with JSON body
`{}`. -/
def stubTransport : Transport := fun _ => .returns ⟨200, some (.obj [])⟩

/-- A client wired to a transport stub whose every call resolves to the given
status and body. -/
def stubClient (status : Nat) (body : Option Json) : MarketplaceClient :=
  ⟨DEFAULT_BASE_URL, none, none, some (fun _ => .returns ⟨status, body⟩)⟩

/-- The spec's `listExtensions` success body:
`{"extensions":[],"pagination":{"page":1,"limit":20,"total":0,"totalPages":0}}`. -/
def listExtensionsStubBody : Json :=
  .obj [("extensions", .arr []),
        ("pagination", .obj [("page", .num 1), ("limit", .num 20),
                             ("total", .num 0), ("totalPages", .num 0)])]

/-- Modelled from the spec: "a missing `transport` must resolve to the ambient
environment's default HTTP capability at call time, not at construction
time."  A request issued under this discipline consults the ambient
capability available at the moment of the call (`ambientAtCall`) whenever the
construction-time options supplied no transport. -/
def requestResolvingAtCallTime (options : MarketplaceClientOptions)
    (ambientAtCall : Option Transport) (endpoint : String)
    (ropts : Option RequestOptions) (log : List PerformedCall) :
    RequestOutcome × List PerformedCall :=
  let c := MarketplaceClient.construct options none
  ({ c with fetchFn := options.fetch <|> ambientAtCall }).request endpoint ropts log

/-! ## Helper lemmas -/

theorem hexChar_pathSafe (d : Nat) : pathSafe (hexChar d) = true := by
  unfold hexChar
  split <;> decide

theorem percentChars_pathSafe (bs : List Nat) : (percentChars bs).all pathSafe = true := by
  induction bs with
  | nil => rfl
  | cons b rest ih =>
    simp [percentChars, List.all_cons, ih, hexChar_pathSafe]
    decide

theorem encodeURIComponentChar_pathSafe (c : Char) :
    (encodeURIComponentChar c).all pathSafe = true := by
  unfold encodeURIComponentChar
  by_cases h : isUriUnreserved c = true
  · rw [if_pos h]
    unfold isUriUnreserved at h
    rw [decide_eq_true_iff] at h
    have h47 : c.toNat ≠ 47 := by omega
    have h63 : c.toNat ≠ 63 := by omega
    have h35 : c.toNat ≠ 35 := by omega
    simp only [List.all_cons, List.all_nil, Bool.and_true, pathSafe,
      Bool.and_eq_true, Bool.not_eq_true', beq_eq_false_iff_ne]
    refine ⟨⟨fun hc => h47 ?_, fun hc => h63 ?_⟩, fun hc => h35 ?_⟩ <;> rw [hc] <;> rfl
  · rw [if_neg h]
    exact percentChars_pathSafe _

theorem encodeURIComponentChars_pathSafe (cs : List Char) :
    (encodeURIComponentChars cs).all pathSafe = true := by
  induction cs with
  | nil => rfl
  | cons c rest ih =>
    simp [encodeURIComponentChars, List.all_append, encodeURIComponentChar_pathSafe, ih]

theorem getHeader_setHeader_self (hs : List (String × String)) (k v : String) :
    getHeader (setHeader hs k v) k = some v := by
  unfold setHeader getHeader
  by_cases h : hs.any (fun kv => kv.1 == k) = true
  · rw [if_pos h]
    induction hs with
    | nil => simp at h
    | cons kv t ih =>
      by_cases hkv : kv.1 = k
      · simp [List.find?_cons_of_pos, hkv]
      · have ht : t.any (fun kv => kv.1 == k) = true := by
          simp only [List.any_cons, Bool.or_eq_true, beq_iff_eq] at h
          rcases h with h | h
          · exact absurd h hkv
          · simpa using h
        have := ih ht
        simp only [List.map_cons, if_neg hkv]
        rw [List.find?_cons_of_neg]
        · exact this
        · simpa using hkv
  · rw [if_neg h]
    have hfail : hs.find? (fun kv => kv.1 == k) = none := by
      rw [List.find?_eq_none]
      intro kv hkv
      simp only [List.any_eq_true, not_exists, not_and] at h
      simpa using h kv hkv
    rw [List.find?_append, hfail]
    simp [List.find?]

theorem getHeader_setHeader_other (hs : List (String × String)) (k v k' : String)
    (hne : k' ≠ k) : getHeader (setHeader hs k v) k' = getHeader hs k' := by
  have hkne : ¬(k == k') = true := fun hb => (Ne.symm hne) (beq_iff_eq.mp hb)
  unfold setHeader getHeader
  by_cases h : hs.any (fun kv => kv.1 == k) = true
  · rw [if_pos h]
    clear h
    induction hs with
    | nil => rfl
    | cons kv t ih =>
      simp only [List.map_cons]
      by_cases hkv : kv.1 = k
      · rw [if_pos hkv]
        rw [@List.find?_cons_of_neg _ (fun x => x.1 == k') (k, v) _ hkne]
        rw [@List.find?_cons_of_neg _ (fun x => x.1 == k') kv _
          (fun hb => (Ne.symm hne) (hkv.symm.trans (beq_iff_eq.mp hb)))]
        exact ih
      · rw [if_neg hkv]
        by_cases hk' : (kv.1 == k') = true
        · rw [@List.find?_cons_of_pos _ (fun x => x.1 == k') kv _ hk',
              @List.find?_cons_of_pos _ (fun x => x.1 == k') kv _ hk']
        · rw [@List.find?_cons_of_neg _ (fun x => x.1 == k') kv _ hk',
              @List.find?_cons_of_neg _ (fun x => x.1 == k') kv _ hk']
          exact ih
  · rw [if_neg h, List.find?_append]
    have hone : List.find? (fun x => x.1 == k') [(k, v)] = none := by
      rw [@List.find?_cons_of_neg _ (fun x => x.1 == k') (k, v) _ hkne]
      rfl
    rw [hone]
    simp

/-- With a non-empty configured platform and app version, the merged headers
resolve those two keys to the configured values, whatever the caller
supplied. -/
theorem getHeader_buildHeaders (p v : String) (callerHeaders : List (String × String))
    (hp : p ≠ "") (hv : v ≠ "") :
    getHeader (buildHeaders (some p) (some v) callerHeaders) "X-Platform" = some p
    ∧ getHeader (buildHeaders (some p) (some v) callerHeaders) "X-App-Version" = some v := by
  unfold buildHeaders
  simp only [setIdentityHeader]
  rw [if_neg hp, if_neg hv]
  constructor
  · rw [getHeader_setHeader_other _ _ _ _ (by decide)]
    exact getHeader_setHeader_self _ _ _
  · exact getHeader_setHeader_self _ _ _

/-! ## Claims -/

/-- Claim C1, as stated, is false: the constructor captures
`options.fetch ?? globalThis.fetch` at construction time.  Concretely, a
client constructed with no supplied transport in an environment with no
ambient fetch fails a later request with a transport-absence error even if an
ambient capability exists by call time, whereas the spec's call-time
resolution discipline would succeed. -/
theorem claim_C1_counterexample :
    ((MarketplaceClient.construct {} none).request "/health" none []).1
      = RequestOutcome.noTransport
    ∧ (requestResolvingAtCallTime {} (some stubTransport) "/health" none []).1
      = RequestOutcome.success (.obj []) := ⟨rfl, rfl⟩

/-- Claim C1 (amended): the ambient HTTP capability is captured at
construction time (`options.fetch ?? globalThis.fetch`), not at call time.
Constructing a client with no supplied transport in an environment with no
ambient fetch still succeeds — it yields a client whose transport slot is
empty — and only a subsequent request fails (with a `TypeError` for calling
the absent transport); constructing while an ambient capability exists
captures that capability. -/
theorem claim_C1 (b p v : Option String) (endpoint : String)
    (ropts : Option RequestOptions) (log : List PerformedCall) :
    (MarketplaceClient.construct ⟨b, p, v, none⟩ none).fetchFn = none
    ∧ (MarketplaceClient.construct ⟨b, p, v, none⟩ none).request endpoint ropts log
      = (RequestOutcome.noTransport, log)
    ∧ ∀ amb : Transport,
        (MarketplaceClient.construct ⟨b, p, v, none⟩ (some amb)).fetchFn = some amb :=
  ⟨rfl, rfl, fun _ => rfl⟩

/-- Claim C10: `getDownloadUrl(slug, "")` is indistinguishable from
`getDownloadUrl(slug)` — the empty-string version fails the truthiness test
`version ? { version } : undefined`, so no `version` parameter is sent. -/
theorem claim_C10 (b : String) (p v : Option String) (fo : Option Transport)
    (slug : String) (log : List PerformedCall) :
    (⟨b, p, v, fo⟩ : MarketplaceClient).getDownloadUrl slug (some "") log
      = (⟨b, p, v, fo⟩ : MarketplaceClient).getDownloadUrl slug none log := rfl

/-- Claim C8: every public operation, under every transport behaviour
(success, error status, or a thrown transport failure — the transport `f` is
arbitrary), invokes the transport exactly once: the call log grows by exactly
one entry. -/
theorem claim_C8 (b : String) (p v : Option String) (f : Transport) (slug : String)
    (params reviewParams : Option (List (String × Option ParamValue)))
    (version : Option String) (log : List PerformedCall) :
    ((⟨b, p, v, some f⟩ : MarketplaceClient).listExtensions params log).2.length
      = log.length + 1
    ∧ ((⟨b, p, v, some f⟩ : MarketplaceClient).getExtension slug log).2.length
      = log.length + 1
    ∧ ((⟨b, p, v, some f⟩ : MarketplaceClient).listCategories log).2.length
      = log.length + 1
    ∧ ((⟨b, p, v, some f⟩ : MarketplaceClient).getDownloadUrl slug version log).2.length
      = log.length + 1
    ∧ ((⟨b, p, v, some f⟩ : MarketplaceClient).listVersions slug log).2.length
      = log.length + 1
    ∧ ((⟨b, p, v, some f⟩ : MarketplaceClient).listReviews slug reviewParams log).2.length
      = log.length + 1
    ∧ ((⟨b, p, v, some f⟩ : MarketplaceClient).health log).2.length
      = log.length + 1 := by
  refine ⟨?_, ?_, ?_, ?_, ?_, ?_, ?_⟩ <;>
    simp [MarketplaceClient.listExtensions, MarketplaceClient.getExtension,
      MarketplaceClient.listCategories, MarketplaceClient.getDownloadUrl,
      MarketplaceClient.listVersions, MarketplaceClient.listReviews,
      MarketplaceClient.health, MarketplaceClient.request]

/-- Claim C6: `getDownloadUrl(slug)` with no version builds a URL with no
query string at all, while `getDownloadUrl(slug, "1.2.3")` appends exactly
the query string `version=1.2.3`. -/
theorem claim_C6 (b : String) (p v : Option String) (f : Transport) (slug : String)
    (log : List PerformedCall) :
    ((⟨b, p, v, some f⟩ : MarketplaceClient).getDownloadUrl slug none log).2
      = log ++ [⟨b ++ "/extensions/" ++ encodeURIComponent slug ++ "/download",
                 buildHeaders p v []⟩]
    ∧ ((⟨b, p, v, some f⟩ : MarketplaceClient).getDownloadUrl slug (some "1.2.3") log).2
      = log ++ [⟨b ++ "/extensions/" ++ encodeURIComponent slug ++ "/download"
                   ++ "?" ++ "version=1.2.3",
                 buildHeaders p v []⟩] := by
  have hqs : searchParamsToString
      (appendDefinedParams [("version", some (ParamValue.str "1.2.3"))])
      = "version=1.2.3" := by decide
  constructor
  · simp [MarketplaceClient.getDownloadUrl, MarketplaceClient.request, buildUrl,
      String.append_assoc]
  · simp [MarketplaceClient.getDownloadUrl, MarketplaceClient.request, buildUrl, hqs,
      String.append_assoc]

/-- Claim C4: the query serializer keeps exactly the entries whose value is
defined, in insertion order, stringified as appended; `undefined` entries are
dropped; defined falsy values (`0`, `""`) are kept (concrete third conjunct);
and the `?` plus query string is appended to the URL only when the
serialization is non-empty. -/
theorem claim_C4 (params : List (String × Option ParamValue)) (baseUrl endpoint : String) :
    appendDefinedParams params
      = params.filterMap (fun kv => kv.2.map (fun pv => (kv.1, pv.jsString)))
    ∧ buildUrl baseUrl endpoint (some params)
      = (if searchParamsToString (appendDefinedParams params) = ""
         then baseUrl ++ endpoint
         else baseUrl ++ endpoint ++ "?" ++ searchParamsToString (appendDefinedParams params))
    ∧ appendDefinedParams
        [("a", some (ParamValue.num 0)), ("b", some (ParamValue.str "")), ("c", none)]
      = [("a", "0"), ("b", "")] := by
  refine ⟨?_, rfl, by decide⟩
  induction params with
  | nil => rfl
  | cons kv rest ih =>
    rcases kv with ⟨k, v⟩
    cases v <;> simp [appendDefinedParams, ih]

/-- Claim C5: the slug is percent-encoded by every per-extension operation,
and the encoded slug contains no `/`, `?` or `#`, so it occupies exactly one
path segment of the constructed URL. -/
theorem claim_C5 (b : String) (p v : Option String) (f : Transport) (slug : String)
    (log : List PerformedCall) :
    (encodeURIComponent slug).data.all pathSafe = true
    ∧ ((⟨b, p, v, some f⟩ : MarketplaceClient).getExtension slug log).2
      = log ++ [⟨b ++ "/extensions/" ++ encodeURIComponent slug, buildHeaders p v []⟩]
    ∧ ((⟨b, p, v, some f⟩ : MarketplaceClient).getDownloadUrl slug none log).2
      = log ++ [⟨b ++ "/extensions/" ++ encodeURIComponent slug ++ "/download",
                 buildHeaders p v []⟩]
    ∧ ((⟨b, p, v, some f⟩ : MarketplaceClient).listVersions slug log).2
      = log ++ [⟨b ++ "/extensions/" ++ encodeURIComponent slug ++ "/versions",
                 buildHeaders p v []⟩]
    ∧ ((⟨b, p, v, some f⟩ : MarketplaceClient).listReviews slug none log).2
      = log ++ [⟨b ++ "/extensions/" ++ encodeURIComponent slug ++ "/reviews",
                 buildHeaders p v []⟩] := by
  refine ⟨encodeURIComponentChars_pathSafe slug.data, ?_, ?_, ?_, ?_⟩ <;>
    simp [MarketplaceClient.getExtension, MarketplaceClient.getDownloadUrl,
      MarketplaceClient.listVersions, MarketplaceClient.listReviews,
      MarketplaceClient.request, buildUrl, String.append_assoc]

/-- Claim C2 (amended): with a configured non-empty platform and app version,
every request the client makes carries `X-Platform` and `X-App-Version` with
the configured values, and caller-supplied overrides for those two header
names are overwritten back to the configured values.  (As stated the claim is
false for the configured empty string, which the truthiness test skips — see
the counterexample.) -/
theorem claim_C2 (b p v : String) (f : Transport) (endpoint : String)
    (opts : Option RequestOptions) (log : List PerformedCall)
    (hp : p ≠ "") (hv : v ≠ "") :
    (((⟨b, some p, some v, some f⟩ : MarketplaceClient).request endpoint opts log).2.drop
        log.length).all
      (fun pc => (getHeader pc.headers "X-Platform" == some p)
        && (getHeader pc.headers "X-App-Version" == some v)) = true := by
  have hsnd : ((⟨b, some p, some v, some f⟩ : MarketplaceClient).request endpoint opts log).2
      = log ++ [⟨buildUrl b endpoint
                   (match opts with | some o => o | none => ({} : RequestOptions)).params,
                 buildHeaders (some p) (some v)
                   (match opts with | some o => o | none => ({} : RequestOptions)).headers⟩] :=
    rfl
  rw [hsnd, List.drop_left]
  have h := getHeader_buildHeaders p v
    (match opts with | some o => o | none => ({} : RequestOptions)).headers hp hv
  simp [h.1, h.2]

/-- Witness for claim C2 at the spec's example: platform `linux`, app version
`2.0.0`, and a caller override attempt for both header names. -/
theorem claim_C2_witness :
    (((⟨DEFAULT_BASE_URL, some "linux", some "2.0.0", some stubTransport⟩ :
          MarketplaceClient).request "/extensions"
        (some ⟨[("X-Platform", "windows"), ("X-App-Version", "9.9.9")], none⟩)
        []).2.drop ([] : List PerformedCall).length).all
      (fun pc => (getHeader pc.headers "X-Platform" == some "linux")
        && (getHeader pc.headers "X-App-Version" == some "2.0.0")) = true :=
  claim_C2 DEFAULT_BASE_URL "linux" "2.0.0" stubTransport "/extensions"
    (some ⟨[("X-Platform", "windows"), ("X-App-Version", "9.9.9")], none⟩) []
    (by decide) (by decide)

/-- Claim C2, as universally stated over every configured platform string, is
false: with configured platform `""` (and app version `2.0.0`), the request's
headers contain no `X-Platform` entry at all — the truthiness test
`if (this.platform)` skips the empty string. -/
theorem claim_C2_counterexample :
    (((⟨DEFAULT_BASE_URL, some "", some "2.0.0", some stubTransport⟩ :
          MarketplaceClient).request "/health" none []).2.map
      (fun pc => getHeader pc.headers "X-Platform")) = [none] := rfl

/-- Claim C3, as stated, is false: a 500 response whose body decodes as the
JSON object `{"error":""}` yields message `HTTP 500`, not the body's `error`
field `""` — the code tests `errorData.error` for truthiness, so an empty
message falls back as if decoding had failed. -/
theorem claim_C3_counterexample :
    ((stubClient 500 (some (.obj [("error", Json.str "")]))).getExtension "missing" []).1
      = RequestOutcome.apiError "HTTP 500" 500
    ∧ ((stubClient 500 (some (.obj [("error", Json.str "")]))).getExtension "missing" []).1
      ≠ RequestOutcome.apiError "" 500 := by
  refine ⟨rfl, fun h => ?_⟩
  rw [show ((stubClient 500 (some (.obj [("error", Json.str "")]))).getExtension
      "missing" []).1 = RequestOutcome.apiError "HTTP 500" 500 from rfl] at h
  injection h with h1 h2
  exact absurd h1 (by decide)

/-- Claim C3 (amended): on a non-success status the call raises an API error
whose status code is the response status and whose message is the body's
`error` field when the body decodes as a JSON object with a truthy (in
particular, non-empty-string) `error` field, falling back to `HTTP <status>`
when body decoding fails; in particular a 404 with body
`{"error":"not found"}` yields message `not found` with status 404, and a 500
with a non-JSON body yields exactly `HTTP 500`. -/
theorem claim_C3 (status : Nat) (fields : List (String × Json)) (errVal : Json)
    (hstat : ¬(200 ≤ status ∧ status < 300))
    (herr : Json.getField (.obj fields) "error" = some errVal)
    (htruthy : errVal.truthy = true) :
    ((stubClient status (some (.obj fields))).getExtension "missing" []).1
      = RequestOutcome.apiError errVal.jsToString status
    ∧ ((stubClient status none).getExtension "missing" []).1
      = RequestOutcome.apiError ("HTTP " ++ toString status) status
    ∧ ((stubClient 404 (some (.obj [("error", Json.str "not found")]))).getExtension
        "missing" []).1
      = RequestOutcome.apiError "not found" 404
    ∧ ((stubClient 500 none).getExtension "missing" []).1
      = RequestOutcome.apiError "HTTP 500" 500 := by
  refine ⟨?_, ?_, rfl, rfl⟩
  · simp only [stubClient, MarketplaceClient.getExtension, MarketplaceClient.request]
    rw [if_neg hstat, herr]
    simp [htruthy]
  · have hne : ("HTTP " ++ toString status) ≠ "" := by
      intro hcon
      have hdata : ("HTTP " ++ toString status).data = "".data := by rw [hcon]
      simp [String.data_append] at hdata
    have ht : (Json.str ("HTTP " ++ toString status)).truthy = true := by
      simp [Json.truthy, hne]
    simp only [stubClient, MarketplaceClient.getExtension, MarketplaceClient.request]
    rw [if_neg hstat]
    simp [Json.getField, Json.jsToString, ht]

/-- Witness for claim C3 at the spec's 404 example. -/
theorem claim_C3_witness :
    ((stubClient 404 (some (.obj [("error", Json.str "not found")]))).getExtension
        "missing" []).1
      = RequestOutcome.apiError (Json.str "not found").jsToString 404
    ∧ ((stubClient 404 none).getExtension "missing" []).1
      = RequestOutcome.apiError ("HTTP " ++ toString 404) 404
    ∧ ((stubClient 404 (some (.obj [("error", Json.str "not found")]))).getExtension
        "missing" []).1
      = RequestOutcome.apiError "not found" 404
    ∧ ((stubClient 500 none).getExtension "missing" []).1
      = RequestOutcome.apiError "HTTP 500" 500 :=
  claim_C3 404 [("error", Json.str "not found")] (Json.str "not found")
    (by decide) rfl rfl

/-- Claim C9, as universally stated, is false on one decoding body: a
non-success response whose body decodes as JSON `null` does not raise the API
error with message `HTTP 404` at all — the property read `errorData.error`
throws a `TypeError` on `null`. -/
theorem claim_C9_counterexample :
    ((stubClient 404 (some Json.null)).getExtension "missing" []).1
      = RequestOutcome.typeError
    ∧ ((stubClient 404 (some Json.null)).getExtension "missing" []).1
      ≠ RequestOutcome.apiError "HTTP 404" 404 := by
  refine ⟨rfl, fun h => ?_⟩
  rw [show ((stubClient 404 (some Json.null)).getExtension "missing" []).1
      = RequestOutcome.typeError from rfl] at h
  exact RequestOutcome.noConfusion h

/-- Claim C9 (amended): for every non-success response whose body decodes as
JSON other than `null` with the `error` field absent, empty, or otherwise
falsy, the raised API error's message is the synthetic `HTTP <status>` — the
same fallback used when the body fails to decode — and the status code is the
response status.  (A body decoding to `null` instead makes the property read
throw a `TypeError`.) -/
theorem claim_C9 (status : Nat) (body : Json)
    (hstat : ¬(200 ≤ status ∧ status < 300))
    (hnotnull : body ≠ Json.null)
    (hfalsy : ∀ u, body.getField "error" = some u → u.truthy = false) :
    ((stubClient status (some body)).getExtension "missing" []).1
      = RequestOutcome.apiError ("HTTP " ++ toString status) status := by
  cases body with
  | null => exact absurd rfl hnotnull
  | obj fields =>
    simp only [stubClient, MarketplaceClient.getExtension, MarketplaceClient.request]
    rw [if_neg hstat]
    cases hf : Json.getField (.obj fields) "error" with
    | none => rfl
    | some u =>
      have hu := hfalsy u hf
      simp [hu]
  | bool bb =>
    simp only [stubClient, MarketplaceClient.getExtension, MarketplaceClient.request]
    rw [if_neg hstat]
    simp [Json.getField]
  | num n =>
    simp only [stubClient, MarketplaceClient.getExtension, MarketplaceClient.request]
    rw [if_neg hstat]
    simp [Json.getField]
  | str s =>
    simp only [stubClient, MarketplaceClient.getExtension, MarketplaceClient.request]
    rw [if_neg hstat]
    simp [Json.getField]
  | arr elems =>
    simp only [stubClient, MarketplaceClient.getExtension, MarketplaceClient.request]
    rw [if_neg hstat]
    simp [Json.getField]

/-- Witness for claim C9: a 404 whose body is the JSON object `{}` (the
`error` field is absent). -/
theorem claim_C9_witness :
    ((stubClient 404 (some (Json.obj []))).getExtension "missing" []).1
      = RequestOutcome.apiError ("HTTP " ++ toString 404) 404 :=
  claim_C9 404 (Json.obj []) (by decide) (fun h => Json.noConfusion h)
    (fun u h => Option.noConfusion h)

/-- Claim C7: on every success status the call resolves to the JSON-decoded
body unchanged, with no transformation or validation; in particular
`listExtensions()` against a 200 stub with the spec's example body resolves
to exactly that object. -/
theorem claim_C7 (status : Nat) (j : Json) (b : String) (p v : Option String)
    (endpoint : String) (opts : Option RequestOptions) (log : List PerformedCall)
    (hstat : 200 ≤ status ∧ status < 300) :
    ((⟨b, p, v, some (fun _ => FetchBehavior.returns ⟨status, some j⟩)⟩ :
        MarketplaceClient).request endpoint opts log).1
      = RequestOutcome.success j
    ∧ ((stubClient 200 (some listExtensionsStubBody)).listExtensions none []).1
      = RequestOutcome.success listExtensionsStubBody := by
  refine ⟨?_, rfl⟩
  simp only [MarketplaceClient.request]
  rw [if_pos hstat]

/-- Witness for claim C7 at status 200 with body `{}`. -/
theorem claim_C7_witness :
    ((⟨DEFAULT_BASE_URL, none, none,
        some (fun _ => FetchBehavior.returns ⟨200, some (Json.obj [])⟩)⟩ :
        MarketplaceClient).request "/health" none []).1
      = RequestOutcome.success (Json.obj [])
    ∧ ((stubClient 200 (some listExtensionsStubBody)).listExtensions none []).1
      = RequestOutcome.success listExtensionsStubBody :=
  claim_C7 200 (Json.obj []) DEFAULT_BASE_URL none none "/health" none [] (by decide)
